import Mathlib

/-!
Verification of the tyomaat-app repository (Työmaat.fi).

This file gives a shallow embedding, in Lean 4, of the parts of the
application that its specification makes checkable claims about:

* the saved-search digest job (`src/app/api/digests/route.ts`; the
  repository also holds two further revisions of the same route, the
  most complete being the `TRACE_VERSION_1` revision in
  `src/unnamed/part_008`, which adds the debug mode and the HTML email
  body — the due check, window computation, filter narrowing and
  per-watch control flow are identical across the three revisions, so
  the digest model below follows the `TRACE_VERSION_1` revision, the
  superset);
* the catalog filtering and map-bounds intersection of the projects
  page (`src/app/projects/page.tsx`);
* the access-gate middleware (`src/middleware.ts`).

Conventions of the embedding:

* JavaScript wall-clock instants (`Date.now()`, parsed ISO strings)
  are integers in milliseconds (`Int`).  A watch's `last_sent_at`
  column, a nullable ISO string parsed with `new Date(s).getTime()`,
  is embedded as `Option Int` holding the parsed instant.
* Nullable columns (`string | null`) are `Option String`; the JS
  nullish coalescing `x ?? d` is `Option.getD`, and the JS truthiness
  test on a possibly-null string (`if (x)`) is "some and nonempty".
* The external services (the datastore queries, the admin user lookup
  and the email provider) are out of scope per the specification; each
  per-watch interaction with them is an oracle input, and the job's
  writes (email sends, `last_sent_at` updates) are recorded in an
  explicit per-watch trace so that frame claims can be stated.
* Coordinates (`number | string | null` in two schema generations) are
  embedded over `ℚ`; a string field carries the value `parseFloat`
  reads from it, `nan` standing for a non-finite number or an
  unparseable string.
* For the middleware, JS string operations (`split(',')`, `trim()`,
  `toLowerCase()`) are modelled directly over `List Char` so that the
  claims about all-whitespace configuration values can be proved by
  induction.
-/

namespace Tyomaat

/-! ## Digest job: data model (`route.ts`, type `Watch`) -/

/-- Delivery frequency of a saved search: `"daily" | "weekly"`. -/
inductive Frequency where
  | daily
  | weekly
deriving DecidableEq, Repr

/-- The `filters` JSON blob stored on a saved search
(`applyProjectFilters` / `summarizeFilters` read the five keys below;
the job guards `!filters || typeof filters !== "object"` first, which
the embedding renders as an outer `Option`). -/
structure WatchFilters where
  q : Option String
  region : Option String
  city : Option String
  phase : Option String
  property_type : Option String
deriving DecidableEq, Repr

/-- A row of `saved_searches` as selected by the digest job. -/
structure Watch where
  id : String
  user_id : String
  name : String
  filters : Option WatchFilters
  frequency : Frequency
  is_enabled : Bool
  last_sent_at : Option Int
deriving DecidableEq, Repr

/-- JS truthiness of a `string | null | undefined` value:
false exactly on `null`/`undefined` and the empty string. -/
def jsTruthy : Option String → Bool
  | none => false
  | some s => !s.isEmpty

/-- One hour in milliseconds (`60 * 60 * 1000`). -/
def hourMs : Int := 60 * 60 * 1000

/-- One day in milliseconds (`const day = 24 * 60 * 60 * 1000`). -/
def dayMs : Int := 24 * 60 * 60 * 1000

/-- `isDue(freq, lastSentAt)` from the digest route: a watch is due
when it was never sent, or when the elapsed time since the last send
reaches the frequency's period.  `now` is the ambient `Date.now()`. -/
def isDue (freq : Frequency) (lastSentAt : Option Int) (now : Int) : Bool :=
  match lastSentAt with
  | none => true
  | some last =>
    let delta : Int := match freq with
      | .daily => dayMs
      | .weekly => 7 * dayMs
    decide (now - last ≥ delta)

/-- The period each frequency names, in milliseconds, as the
specification states it: 86400 s for daily, 604800 s for weekly.
(Spec-side constant, to be compared with the code's `isDue`.) -/
def specPeriodMs : Frequency → Int
  | .daily => 86400 * 1000
  | .weekly => 604800 * 1000

/-- The query-window lower bound the job computes for a due watch:
`last_sent_at` when present, else
`Date.now() - (freq === "daily" ? 24 : 7) * 60 * 60 * 1000`. -/
def sinceOf (freq : Frequency) (lastSentAt : Option Int) (now : Int) : Int :=
  match lastSentAt with
  | some t => t
  | none => now - (match freq with | .daily => (24 : Int) | .weekly => 7) * 60 * 60 * 1000

/-! ## Digest job: per-watch processing -/

/-- The projection of a project row the digest query selects
(`select("id,name,city,region,phase,created_at")`); only the fields
the email renders are kept. -/
structure ProjRow where
  name : String
  city : String
  region : Option String
  phase : String
deriving DecidableEq, Repr

/-- Outcome of the per-watch projects query, an external-datastore
oracle: either an error object or a row list (a `null` data array is
folded into the empty list, as the job's `!projects ||
projects.length === 0` test treats the two alike). -/
inductive QueryOutcome where
  | qerr (msg : String)
  | qok (projects : List ProjRow)
deriving DecidableEq, Repr

/-- Outcome of `supabase.auth.admin.getUserById`: an error, or a user
whose `email` may be absent. -/
inductive UserOutcome where
  | uerr
  | uok (email : Option String)
deriving DecidableEq, Repr

/-- Outcome of `resend.emails.send`: provider-reported error or
success. -/
inductive SendOutcome where
  | serr
  | sok
deriving DecidableEq, Repr

/-- A watch together with the responses the external services would
give for it on this run. -/
structure WatchEnv where
  watch : Watch
  query : QueryOutcome
  userLookup : UserOutcome
  send : SendOutcome
deriving DecidableEq, Repr

/-- The email message handed to the provider. -/
structure DigestEmail where
  toAddr : String
  subject : String
  text : String
  html : String
deriving DecidableEq, Repr

/-- A row of the `debugRows` diagnostic array (`TRACE_VERSION_1`). -/
structure DebugRow where
  watch_id : String
  name : String
  frequency : Frequency
  last_sent_at : Option Int
  due : Bool
  since : Option Int
  projects_found : Option Nat
  note : Option String
deriving DecidableEq, Repr

/-- Observable effects of processing one watch: whether and with which
bound the projects query ran, the email handed to the provider (if the
send was invoked), whether the provider accepted it, the new
`last_sent_at` written (if any), the contribution to the `sent`
counter, and the debug row (if in debug mode). -/
structure WatchTrace where
  watchId : String
  dueResult : Bool
  queriedSince : Option Int
  sendAttempt : Option DigestEmail
  sendOk : Bool
  lastSentUpdate : Option Int
  sentIncr : Nat
  debugRow : Option DebugRow
deriving DecidableEq, Repr

/-- `escapeHtml` from the `TRACE_VERSION_1` digest revision. -/
def escapeHtml (s : String) : String :=
  ((((s.replace "&" "&amp;").replace "<" "&lt;").replace ">" "&gt;").replace
      "\"" "&quot;").replace "\x27" "&#039;"

/-- `summarizeFilters` from the `TRACE_VERSION_1` digest revision. -/
def summarizeFilters (filters : Option WatchFilters) : String :=
  match filters with
  | none => "Ei suodattimia"
  | some f =>
    let parts : List String :=
      (if jsTruthy f.q then ["Haku: " ++ f.q.getD ""] else []) ++
      (if jsTruthy f.region then ["Maakunta: " ++ f.region.getD ""] else []) ++
      (if jsTruthy f.city then ["Kaupunki: " ++ f.city.getD ""] else []) ++
      (if jsTruthy f.phase then ["Vaihe: " ++ f.phase.getD ""] else []) ++
      (if jsTruthy f.property_type then ["Kohdetyyppi: " ++ f.property_type.getD ""] else [])
    if parts.isEmpty then "Ei suodattimia" else String.intercalate " • " parts

/-- One plain-text bullet line of the digest email:
`• ${p.name} – ${p.city} – ${p.region ?? "-"} (${p.phase})`. -/
def projLine (p : ProjRow) : String :=
  "• " ++ p.name ++ " – " ++ p.city ++ " – " ++ p.region.getD "-" ++ " (" ++ p.phase ++ ")"

/-- The plain-text bullet list: the first 30 rows, one line each. -/
def digestLines (projects : List ProjRow) : List String :=
  (projects.take 30).map projLine

/-- The plain-text body of the digest email (`textBody`). -/
def digestTextBody (watchName filterSummary appBaseUrl : String)
    (projects : List ProjRow) : String :=
  "Hei!\n\n" ++
  "Hakuvahti: " ++ watchName ++ "\n" ++
  "Suodattimet: " ++ filterSummary ++ "\n\n" ++
  "Löytyi " ++ toString projects.length ++ " uutta hanketta edellisen koonnin jälkeen.\n\n" ++
  String.intercalate "\n" (digestLines projects) ++ "\n\n" ++
  "Avaa Työmaat: " ++ appBaseUrl ++ "/projects\n" ++
  "Hallinnoi hakuvahteja: " ++ appBaseUrl ++ "/watchlists\n"

/-- One HTML table row of the digest email (`rowsHtml` element). -/
def projRowHtml (p : ProjRow) : String :=
  let meta := String.intercalate " • "
    (([p.city, p.region.getD "-", p.phase]).filter (fun s => !s.isEmpty))
  "<tr><td style=\"padding:10px 0;border-bottom:1px solid #e5e7eb;\">" ++
  "<div style=\"font-weight:700;color:#111827;\">" ++ escapeHtml p.name ++ "</div>" ++
  "<div style=\"font-size:13px;color:#6b7280;margin-top:2px;\">" ++ escapeHtml meta ++
  "</div></td></tr>"

/-- The truncation note of the HTML body: rendered exactly when more
than 30 projects matched
(`projects.length > 30 ? "Näytetään 30 / ..." : ""`). -/
def truncNote (count : Nat) : String :=
  if count > 30 then
    "<div style=\"font-size:13px;color:#6b7280;margin-top:10px;\">Näytetään 30 / " ++
      toString count ++ ". Avaa palvelu nähdäksesi kaikki.</div>"
  else ""

/-- The HTML body up to and including the closing of the row table:
the card header (counts, watch name, filter summary) and the rows of
the first 30 projects. -/
def digestHtmlPre (watchName filterSummary : String) (projects : List ProjRow) : String :=
  "<div style=\"font-family:ui-sans-serif,system-ui;background:#f9fafb;padding:24px;\">" ++
  "<div style=\"max-width:640px;margin:0 auto;background:#ffffff;\">" ++
  "<div style=\"padding:18px 20px;border-bottom:1px solid #e5e7eb;\">" ++
  "<div style=\"font-size:18px;font-weight:800;color:#111827;\">Työmaat.fi</div>" ++
  "<div style=\"font-weight:700;\">Uusia hankkeita: " ++ toString projects.length ++ "</div>" ++
  "<div style=\"font-size:13px;color:#6b7280;\">Hakuvahti: " ++ escapeHtml watchName ++ "</div>" ++
  "<div style=\"font-size:13px;color:#6b7280;\">Suodattimet: " ++ escapeHtml filterSummary ++
  "</div></div><div style=\"padding:6px 20px 0 20px;\">" ++
  "<table style=\"width:100%;border-collapse:collapse;\">" ++
  String.join ((projects.take 30).map projRowHtml) ++
  "</table>"

/-- The HTML body after the truncation note: call-to-action links. -/
def digestHtmlPost (appBaseUrl : String) : String :=
  "<div style=\"margin:18px 0 6px 0;\"><a href=\"" ++ appBaseUrl ++ "/projects\">Avaa Työmaat</a></div>" ++
  "<div style=\"margin:10px 0 18px 0;font-size:13px;color:#6b7280;\">Hallinnoi hakuvahteja: " ++
  "<a href=\"" ++ appBaseUrl ++ "/watchlists\">" ++ appBaseUrl ++ "/watchlists</a>" ++
  "</div></div></div></div>"

/-- The HTML body of the digest email (`htmlBody`): header and
first-30 rows, then the conditional truncation note, then the
footer. -/
def digestHtmlBody (watchName filterSummary appBaseUrl : String)
    (projects : List ProjRow) : String :=
  digestHtmlPre watchName filterSummary projects ++
  truncNote projects.length ++
  digestHtmlPost appBaseUrl

/-- The full email for a due watch with matches (`subject`, `textBody`,
`htmlBody` handed to `resend.emails.send`). -/
def digestEmailFor (appBaseUrl : String) (w : Watch) (email : String)
    (projects : List ProjRow) : DigestEmail :=
  let filterSummary := summarizeFilters w.filters
  { toAddr := email
    subject := "Uusia hankkeita (" ++ toString projects.length ++ ") – " ++ w.name
    text := digestTextBody w.name filterSummary appBaseUrl projects
    html := digestHtmlBody w.name filterSummary appBaseUrl projects }

/-- A trace for a watch that was only counted: nothing further ran. -/
def skipTrace (w : Watch) (due : Bool) (queriedSince : Option Int)
    (row : Option DebugRow) : WatchTrace :=
  { watchId := w.id, dueResult := due, queriedSince := queriedSince,
    sendAttempt := none, sendOk := false, lastSentUpdate := none,
    sentIncr := 0, debugRow := row }

/-- The body of the digest loop for one watch (`TRACE_VERSION_1`
revision; the two other revisions in the repository are this function
with `debug` fixed to `false`).  Translates, in order: the due check
and its debug row, the `since` window, the projects query and its
error path, the debug short-circuit, the zero-result path (timestamp
advanced, nothing sent), the user-email resolution with its two
failure modes, the send, the provider-error path, and the
timestamp-advance-and-count path. -/
def processWatch (debug : Bool) (now : Int) (appBaseUrl : String)
    (env : WatchEnv) : WatchTrace :=
  let w := env.watch
  let due := isDue w.frequency w.last_sent_at now
  if due = false then
    skipTrace w due none
      (if debug then
        some { watch_id := w.id, name := w.name, frequency := w.frequency,
               last_sent_at := w.last_sent_at, due := due, since := none,
               projects_found := none, note := some "Skipped (not due)" }
       else none)
  else
    let since := sinceOf w.frequency w.last_sent_at now
    match env.query with
    | .qerr msg =>
      skipTrace w due (some since)
        (if debug then
          some { watch_id := w.id, name := w.name, frequency := w.frequency,
                 last_sent_at := w.last_sent_at, due := due, since := some since,
                 projects_found := none,
                 note := some ("Projects query error: " ++ msg) }
         else none)
    | .qok projects =>
      if debug then
        -- debug mode records the row and continues: no send, no update
        skipTrace w due (some since)
          (some { watch_id := w.id, name := w.name, frequency := w.frequency,
                  last_sent_at := w.last_sent_at, due := due, since := some since,
                  projects_found := some projects.length, note := none })
      else if projects.isEmpty then
        -- zero results: still advance last_sent_at, send nothing
        { watchId := w.id, dueResult := due, queriedSince := some since,
          sendAttempt := none, sendOk := false, lastSentUpdate := some now,
          sentIncr := 0, debugRow := none }
      else
        match env.userLookup with
        | .uerr => skipTrace w due (some since) none
        | .uok emailOpt =>
          if jsTruthy emailOpt = false then
            skipTrace w due (some since) none
          else
            let mail := digestEmailFor appBaseUrl w (emailOpt.getD "") projects
            match env.send with
            | .serr =>
              { watchId := w.id, dueResult := due, queriedSince := some since,
                sendAttempt := some mail, sendOk := false, lastSentUpdate := none,
                sentIncr := 0, debugRow := none }
            | .sok =>
              { watchId := w.id, dueResult := due, queriedSince := some since,
                sendAttempt := some mail, sendOk := true, lastSentUpdate := some now,
                sentIncr := 1, debugRow := none }

/-- Result of the whole per-watch loop. -/
structure DigestRun where
  checked : Nat
  sentCount : Nat
  traces : List WatchTrace
deriving DecidableEq, Repr

/-- The digest loop over the enabled watches: `checked` is incremented
unconditionally at the top of each iteration; every failure path is a
`continue`, so every watch contributes exactly one trace. -/
def runDigest (debug : Bool) (now : Int) (appBaseUrl : String) :
    List WatchEnv → DigestRun
  | [] => { checked := 0, sentCount := 0, traces := [] }
  | env :: rest =>
    let tr := processWatch debug now appBaseUrl env
    let r := runDigest debug now appBaseUrl rest
    { checked := r.checked + 1, sentCount := tr.sentIncr + r.sentCount,
      traces := tr :: r.traces }

/-! ## Digest job: the endpoint (`GET`) -/

/-- The environment and external state the endpoint reads: the
configuration variables (`process.env.*`, each possibly unset) and the
datastore's answer to the enabled-watches query, each watch paired
with its per-watch oracles. -/
structure EndpointEnv where
  cronSecret : Option String
  supabaseUrl : Option String
  serviceRoleKey : Option String
  resendKey : Option String
  appBaseUrlVar : Option String
  watchesResult : Except String (List WatchEnv)
deriving Repr

/-- JS `a || d` for a possibly-unset string variable: the default is
taken on `undefined` and on the empty string. -/
def jsOrDefault (o : Option String) (d : String) : String :=
  match o with
  | none => d
  | some s => if s.isEmpty then d else s

/-- The endpoint's responses: `unauthorized` is the 401 JSON,
`configError` and `storeError` the 500s, `success` the
`{ ok, checked, sent }` (with `debugRows` when in debug mode). -/
inductive DigestResponse where
  | unauthorized
  | configError (msg : String)
  | storeError (msg : String)
  | success (checked sentCount : Nat) (debugRows : Option (List DebugRow))
deriving DecidableEq, Repr

/-- The secret gate of the endpoint:
`if (!secret || secret !== process.env.CRON_SECRET)` — passes only
when the query parameter is present, truthy (nonempty) and strictly
equal to a set `CRON_SECRET`. -/
def secretAccepted (secretParam cronSecret : Option String) : Bool :=
  match secretParam with
  | none => false
  | some s => !s.isEmpty && (match cronSecret with
      | some c => s = c
      | none => false)

/-- The digest endpoint (`GET`, `TRACE_VERSION_1` revision).  Returns
the HTTP response together with the processing performed: `none` when
the per-watch loop was never entered (no watch fetched or evaluated,
no email sent, no timestamp written).  `debugParam` is
`searchParams.get("debug")`; debug mode is its strict equality with
`"1"`. -/
def digestGET (secretParam debugParam : Option String) (env : EndpointEnv)
    (now : Int) : DigestResponse × Option DigestRun :=
  let debug := debugParam = some "1"
  if secretAccepted secretParam env.cronSecret = false then
    (.unauthorized, none)
  else if env.supabaseUrl.isNone then
    (.configError "Missing NEXT_PUBLIC_SUPABASE_URL", none)
  else if env.serviceRoleKey.isNone then
    (.configError "Missing SUPABASE_SERVICE_ROLE_KEY", none)
  else if env.resendKey.isNone then
    (.configError "Missing RESEND_API_KEY", none)
  else
    let appBaseUrl := jsOrDefault env.appBaseUrlVar "http://localhost:3000"
    match env.watchesResult with
    | .error msg => (.storeError msg, none)
    | .ok watchEnvs =>
      let run := runDigest debug now appBaseUrl watchEnvs
      (.success run.checked run.sentCount
        (if debug then some (run.traces.filterMap (fun tr => tr.debugRow)) else none),
       some run)

/-! ## Catalog view (`src/app/projects/page.tsx`) -/

/-- A `number | string | null` coordinate cell.  `num` is a finite
number, `nan` a non-finite number or a string `parseFloat` rejects,
and `strnum` a string `parseFloat` reads as the given finite value. -/
inductive NumLike where
  | nullv
  | num (q : ℚ)
  | nan
  | strnum (q : ℚ)
deriving DecidableEq, Repr

/-- `toNumberOrNull` from the projects page: `null`/non-finite →
`null`, otherwise the numeric value. -/
def toNumberOrNull : Option NumLike → Option ℚ
  | none => none
  | some .nullv => none
  | some (.num q) => some q
  | some .nan => none
  | some (.strnum q) => some q

/-- JS nullish coalescing `a ?? b` on coordinate cells: `b` is taken
exactly when `a` is `undefined` (absent field) or `null`. -/
def jsCoalesce (a b : Option NumLike) : Option NumLike :=
  match a with
  | none => b
  | some .nullv => b
  | some v => some v

/-- A row of `projects` as loaded by the catalog page (the fields the
filtering, list and map logic read; `latitude/longitude` is the
current schema, `lat/lng` the legacy one). -/
structure Project where
  id : String
  name : String
  city : String
  region : Option String
  phase : String
  location : Option String
  developer : Option String
  builder : Option String
  property_type : Option String
  additional_info : Option String
  latitude : Option NumLike
  longitude : Option NumLike
  lat : Option NumLike
  lng : Option NumLike
deriving DecidableEq, Repr

/-- `getCoords`: coerce `latitude ?? lat` and `longitude ?? lng` to
numbers or `null`. -/
def getCoords (p : Project) : Option ℚ × Option ℚ :=
  (toNumberOrNull (jsCoalesce p.latitude p.lat),
   toNumberOrNull (jsCoalesce p.longitude p.lng))

/-- `hasCoords`: both coordinates usable. -/
def hasCoords (p : Project) : Bool :=
  (getCoords p).1.isSome && (getCoords p).2.isSome

/-- Substring test on character lists (JS `String.prototype.includes`
semantics): prefix at some position; the empty needle always
matches. -/
def charsPrefixOf : List Char → List Char → Bool
  | [], _ => true
  | _ :: _, [] => false
  | a :: as, b :: bs => a == b && charsPrefixOf as bs

/-- See `charsPrefixOf`; scans every suffix of the haystack. -/
def charsIncludes (needle : List Char) : List Char → Bool
  | [] => needle.isEmpty
  | c :: rest => charsPrefixOf needle (c :: rest) || charsIncludes needle rest

/-- JS `hay.includes(needle)` on strings. -/
def strIncludes (hay needle : String) : Bool :=
  charsIncludes needle.data hay.data

/-- JS `str.toLowerCase()` on strings (ASCII range, per the data this
application handles). -/
def strToLower (s : String) : String :=
  String.mk (s.data.map Char.toLower)

/-- JS `str.trim()` on strings: strip leading and trailing
whitespace. -/
def strTrim (s : String) : String :=
  String.mk (((s.data.dropWhile Char.isWhitespace).reverse.dropWhile
    Char.isWhitespace).reverse)

/-- The searchable haystack of a project: its
name/region/city/phase/location/developer/builder/property-type/notes
joined with spaces and lowercased (`filteredProjects` body). -/
def haystackOf (p : Project) : String :=
  strToLower (String.intercalate " "
    [p.name, p.region.getD "", p.city, p.phase, p.location.getD "",
     p.developer.getD "", p.builder.getD "", p.property_type.getD "",
     p.additional_info.getD ""])

/-- The per-project predicate of `filteredProjects`, translated with
its early returns: each selected categorical filter must match
(region and property type compared after `|| ''` null-coercion, city
and phase as stored), then the free-text needle, when nonempty, must
occur in the haystack. -/
def projectMatches (q region city phase propertyType : String) (p : Project) : Bool :=
  -- the source binds `needle = q.trim().toLowerCase()` once; it is
  -- written out at its two use sites below
  if !region.isEmpty && !(p.region.getD "" == region) then false
  else if !city.isEmpty && !(p.city == city) then false
  else if !phase.isEmpty && !(p.phase == phase) then false
  else if !propertyType.isEmpty && !(p.property_type.getD "" == propertyType) then false
  else if (strToLower (strTrim q)).isEmpty then true
  else strIncludes (haystackOf p) (strToLower (strTrim q))

/-- `filteredProjects`: the loaded projects surviving the active
filter set. -/
def filteredProjects (projects : List Project)
    (q region city phase propertyType : String) : List Project :=
  projects.filter (projectMatches q region city phase propertyType)

/-- The current map viewport (`MapBounds`). -/
structure MapBounds where
  south : ℚ
  west : ℚ
  north : ℚ
  east : ℚ
deriving DecidableEq, Repr

/-- The bounds test of `inBoundsWithCoords`: a project with unusable
coordinates never passes; otherwise containment in the viewport
rectangle. -/
def projInBounds (b : MapBounds) (p : Project) : Bool :=
  match getCoords p with
  | (some la, some ln) =>
    decide (la ≥ b.south) && decide (la ≤ b.north) &&
    decide (ln ≥ b.west) && decide (ln ≤ b.east)
  | _ => false

/-- `filteredWithCoords`: the filtered projects that can be mapped. -/
def filteredWithCoords (projects : List Project)
    (q region city phase propertyType : String) : List Project :=
  (filteredProjects projects q region city phase propertyType).filter hasCoords

/-- `filteredNoCoords`: the filtered projects that cannot be mapped. -/
def filteredNoCoords (projects : List Project)
    (q region city phase propertyType : String) : List Project :=
  (filteredProjects projects q region city phase propertyType).filter
    (fun p => !hasCoords p)

/-- `inBoundsWithCoords`: when the limit toggle is on and bounds are
known, restrict the mappable filtered projects to the viewport;
otherwise pass them through. -/
def inBoundsWithCoords (limitToMapView : Bool) (mapBounds : Option MapBounds)
    (fwc : List Project) : List Project :=
  if limitToMapView = false then fwc
  else match mapBounds with
    | none => fwc
    | some b => fwc.filter (projInBounds b)

/-- `listProjects`: with the toggle off, all filtered projects; with
it on, the in-viewport mappable ones followed by every unmappable
filtered one. -/
def listProjects (limitToMapView : Bool) (mapBounds : Option MapBounds)
    (projects : List Project) (q region city phase propertyType : String) :
    List Project :=
  if limitToMapView = false then
    filteredProjects projects q region city phase propertyType
  else
    inBoundsWithCoords limitToMapView mapBounds
        (filteredWithCoords projects q region city phase propertyType) ++
      filteredNoCoords projects q region city phase propertyType

/-! ## Access-gate middleware (`src/middleware.ts`)

JS string operations are modelled over `List Char`: `jsSplitComma` is
`value.split(',')`, `jsTrim` is `trim()`, `jsToLower` is
`toLowerCase()`. -/

/-- JS `str.split(',')`; the empty string yields one empty piece. -/
def jsSplitComma : List Char → List (List Char)
  | [] => [[]]
  | c :: rest =>
    if c = ',' then [] :: jsSplitComma rest
    else
      match jsSplitComma rest with
      | [] => [[c]]
      | piece :: pieces => (c :: piece) :: pieces

/-- JS `str.trim()`: strip leading and trailing whitespace. -/
def jsTrim (l : List Char) : List Char :=
  ((l.dropWhile Char.isWhitespace).reverse.dropWhile Char.isWhitespace).reverse

/-- JS `str.toLowerCase()` (ASCII range, as the allow-list emails and
paths here are ASCII). -/
def jsToLower (l : List Char) : List Char :=
  l.map Char.toLower

/-- `parseAdminEmails` from the middleware: split the (possibly
unset) `ADMIN_EMAILS` on commas, trim and lowercase each piece, and
drop the falsy (empty) pieces. -/
def parseAdminEmails (value : Option (List Char)) : List (List Char) :=
  ((jsSplitComma (value.getD [])).map (fun s => jsToLower (jsTrim s))).filter
    (fun s => !s.isEmpty)

/-- The authenticated session user the middleware sees (`getUser`
errors are already folded to "no user" by the caller). -/
structure SessionUser where
  email : Option (List Char)
deriving DecidableEq, Repr

/-- The middleware's outcome on a request. -/
inductive GateResult where
  | next
  | redirectLogin (nextPath : List Char)
  | redirectProjects
deriving DecidableEq, Repr

/-- `middleware`: protected paths require a user; `/dashboard*`
additionally requires the user's lowercased email to appear in the
parsed allow-list. -/
def middleware (pathname : List Char) (user : Option SessionUser)
    (adminEmailsVar : Option (List Char)) : GateResult :=
  let isDashboard := charsPrefixOf "/dashboard".data pathname
  let isProjects := charsPrefixOf "/projects".data pathname
  let isProtected := isDashboard || isProjects
  if isProtected && user.isNone then .redirectLogin pathname
  else if isDashboard then
    let admins := parseAdminEmails adminEmailsVar
    let userEmail := jsToLower (((user.bind (fun u => u.email)).getD []))
    if admins.contains userEmail = false then .redirectProjects
    else .next
  else .next

/-! ## Theorems -/

/-- A concrete never-sent weekly watch, for evaluating the window
computation. -/
def weeklyNeverSent : Watch :=
  { id := "w1", user_id := "u1", name := "Uusimaa – Suunnittelu",
    filters := none, frequency := .weekly, is_enabled := true,
    last_sent_at := none }

/-- C1 (code bug evaluation): for a never-sent weekly watch the
`since` bound the job passes to the projects query is `now` minus
SEVEN HOURS — the source multiplies `(freq === "daily" ? 24 : 7)` by
`60 * 60 * 1000`, so the weekly branch produces 7 hours where the
specification (and the 7-day weekly period of `isDue` in the same
file) requires 7 days.  The daily branch does equal one day, and the
bound is not the epoch. -/
theorem weekly_since_window_bug :
    (∀ now : Int, sinceOf .weekly none now = now - 7 * 60 * 60 * 1000) ∧
    (∀ now : Int, sinceOf .daily none now = now - 24 * 60 * 60 * 1000) ∧
    (processWatch false 1700000000000 "http://localhost:3000"
        { watch := weeklyNeverSent, query := .qok [], userLookup := .uok none,
          send := .sok }).queriedSince = some (1700000000000 - 7 * 60 * 60 * 1000) ∧
    (1700000000000 - 7 * 60 * 60 * 1000 : Int) ≠ 1700000000000 - 7 * 24 * 60 * 60 * 1000 := by
  refine ⟨fun now => rfl, fun now => rfl, by decide, by decide⟩

/-- C2: the due check holds unconditionally for a never-sent watch,
and otherwise exactly when the elapsed time since the last send
reaches the frequency's period — 86400 s for daily, 604800 s for
weekly — with boundary equality counting as due. -/
theorem isDue_characterization (f : Frequency) (now last : Int) :
    isDue f none now = true ∧
    (isDue f (some last) now = true ↔ now - last ≥ specPeriodMs f) := by
  refine ⟨rfl, ?_⟩
  cases f <;> simp [isDue, specPeriodMs, dayMs]

/-- C3: a due watch whose projects query succeeds with zero rows still
has its `last_sent_at` advanced to the current time, while no email is
handed to the provider and the `sent` counter is untouched. -/
theorem zero_result_advances_timestamp (now : Int) (appBaseUrl : String)
    (env : WatchEnv)
    (hdue : isDue env.watch.frequency env.watch.last_sent_at now = true)
    (hq : env.query = .qok []) :
    (processWatch false now appBaseUrl env).lastSentUpdate = some now ∧
    (processWatch false now appBaseUrl env).sendAttempt = none ∧
    (processWatch false now appBaseUrl env).sentIncr = 0 := by
  simp [processWatch, hdue, hq]

/-- Concrete environment for exercising the zero-result path. -/
def zeroResultEnv : WatchEnv :=
  { watch := weeklyNeverSent, query := .qok [], userLookup := .uok none,
    send := .sok }

/-- Witness for C3 at a concrete due watch with an empty result. -/
theorem zero_result_advances_timestamp_witness :
    (processWatch false 1700000000000 "http://localhost:3000" zeroResultEnv).lastSentUpdate
        = some 1700000000000 ∧
    (processWatch false 1700000000000 "http://localhost:3000" zeroResultEnv).sendAttempt
        = none ∧
    (processWatch false 1700000000000 "http://localhost:3000" zeroResultEnv).sentIncr = 0 :=
  zero_result_advances_timestamp 1700000000000 "http://localhost:3000" zeroResultEnv
    (by decide) rfl

/-- C7: a request whose `secret` query parameter is absent or differs
from the configured secret is answered 401 unauthorized, and the
per-watch loop is never entered — no watch fetched or evaluated, no
email sent, no timestamp written — whatever the rest of the
environment holds. -/
theorem wrong_secret_unauthorized (secretParam debugParam : Option String)
    (env : EndpointEnv) (now : Int) (c : String)
    (hc : env.cronSecret = some c)
    (hmiss : secretParam = none ∨ secretParam ≠ some c) :
    digestGET secretParam debugParam env now = (.unauthorized, none) := by
  have hacc : secretAccepted secretParam env.cronSecret = false := by
    rcases hmiss with h | h
    · subst h; rfl
    · cases secretParam with
      | none => rfl
      | some s =>
        have hsc : s ≠ c := fun hsc => h (by simp [hsc])
        simp [secretAccepted, hc, hsc]
  simp [digestGET, hacc]

/-- Concrete endpoint environment with a set secret; the watches
oracle would return one enabled watch, which must stay untouched. -/
def gateDemoEnv : EndpointEnv :=
  { cronSecret := some "topsecret", supabaseUrl := some "https://db",
    serviceRoleKey := some "sk", resendKey := some "re_k",
    appBaseUrlVar := none,
    watchesResult := .ok [zeroResultEnv] }

/-- Witness for C7: a wrong secret at a concrete environment. -/
theorem wrong_secret_unauthorized_witness :
    digestGET (some "guess") none gateDemoEnv 1700000000000 = (.unauthorized, none) :=
  wrong_secret_unauthorized (some "guess") none gateDemoEnv 1700000000000 "topsecret"
    rfl (Or.inr (by simp))

/-- Every iteration of the digest loop increments `checked` and
contributes exactly one trace, whatever happens inside: no per-watch
outcome aborts the batch. -/
theorem runDigest_length (debug : Bool) (now : Int) (appBaseUrl : String)
    (envs : List WatchEnv) :
    (runDigest debug now appBaseUrl envs).checked = envs.length ∧
    (runDigest debug now appBaseUrl envs).traces = envs.map (processWatch debug now appBaseUrl) := by
  induction envs with
  | nil => exact ⟨rfl, rfl⟩
  | cons e rest ih => simp [runDigest, ih.1, ih.2]

/-- C4: for a due watch with matches whose owning user's email cannot
be resolved (lookup error or missing address) or whose send the
provider rejects, `last_sent_at` is left unchanged (so the next run
recomputes the same window) and `sent` is not incremented; and the
loop still checks every remaining watch and processes each one
independently. -/
theorem send_failure_preserves_timestamp (now : Int) (appBaseUrl : String)
    (env : WatchEnv) (ps : List ProjRow)
    (hdue : isDue env.watch.frequency env.watch.last_sent_at now = true)
    (hq : env.query = .qok ps) (hne : ps ≠ [])
    (hfail : env.userLookup = .uerr ∨ env.userLookup = .uok none ∨ env.send = .serr) :
    (processWatch false now appBaseUrl env).lastSentUpdate = none ∧
    (processWatch false now appBaseUrl env).sentIncr = 0 ∧
    ∀ rest : List WatchEnv,
      (runDigest false now appBaseUrl (env :: rest)).checked = rest.length + 1 ∧
      (runDigest false now appBaseUrl (env :: rest)).traces =
        processWatch false now appBaseUrl env ::
          rest.map (processWatch false now appBaseUrl) := by
  refine ⟨?_, ?_, ?_⟩
  · rcases hfail with h | h | h
    · simp [processWatch, hdue, hq, hne, h, skipTrace]
    · simp [processWatch, hdue, hq, hne, h, skipTrace, jsTruthy]
    · rcases hu : env.userLookup with _ | emailOpt
      · simp [processWatch, hdue, hq, hne, hu, skipTrace]
      · rcases emailOpt with _ | e
        · simp [processWatch, hdue, hq, hne, hu, skipTrace, jsTruthy]
        · by_cases he : e.isEmpty <;>
            simp [processWatch, hdue, hq, hne, hu, h, skipTrace, jsTruthy, he]
  · rcases hfail with h | h | h
    · simp [processWatch, hdue, hq, hne, h, skipTrace]
    · simp [processWatch, hdue, hq, hne, h, skipTrace, jsTruthy]
    · rcases hu : env.userLookup with _ | emailOpt
      · simp [processWatch, hdue, hq, hne, hu, skipTrace]
      · rcases emailOpt with _ | e
        · simp [processWatch, hdue, hq, hne, hu, skipTrace, jsTruthy]
        · by_cases he : e.isEmpty <;>
            simp [processWatch, hdue, hq, hne, hu, h, skipTrace, jsTruthy, he]
  · intro rest
    have h := runDigest_length false now appBaseUrl (env :: rest)
    have h2 := runDigest_length false now appBaseUrl rest
    simpa [List.map] using h

/-- Concrete environment where the provider rejects the send. -/
def sendFailEnv : WatchEnv :=
  { watch := weeklyNeverSent,
    query := .qok [{ name := "Kohde", city := "Espoo", region := some "Uusimaa",
                     phase := "Suunnittelussa" }],
    userLookup := .uok (some "user@example.com"), send := .serr }

/-- Witness for C4 at a concrete failing send. -/
theorem send_failure_preserves_timestamp_witness :
    (processWatch false 1700000000000 "http://localhost:3000" sendFailEnv).lastSentUpdate
        = none ∧
    (processWatch false 1700000000000 "http://localhost:3000" sendFailEnv).sentIncr = 0 ∧
    ∀ rest : List WatchEnv,
      (runDigest false 1700000000000 "http://localhost:3000" (sendFailEnv :: rest)).checked
          = rest.length + 1 ∧
      (runDigest false 1700000000000 "http://localhost:3000" (sendFailEnv :: rest)).traces =
        processWatch false 1700000000000 "http://localhost:3000" sendFailEnv ::
          rest.map (processWatch false 1700000000000 "http://localhost:3000") :=
  send_failure_preserves_timestamp 1700000000000 "http://localhost:3000" sendFailEnv _
    (by decide) rfl (by decide) (Or.inr (Or.inr rfl))

/-- In debug mode the loop body never hands the provider an email,
never writes `last_sent_at`, never counts a send, always records a
diagnostic row, and runs the projects query exactly for the watches
the due check accepts. -/
theorem processWatch_debug_frame (now : Int) (appBaseUrl : String) (env : WatchEnv) :
    (processWatch true now appBaseUrl env).sendAttempt = none ∧
    (processWatch true now appBaseUrl env).lastSentUpdate = none ∧
    (processWatch true now appBaseUrl env).sentIncr = 0 ∧
    (processWatch true now appBaseUrl env).debugRow.isSome = true ∧
    (processWatch true now appBaseUrl env).dueResult =
      isDue env.watch.frequency env.watch.last_sent_at now ∧
    (processWatch true now appBaseUrl env).queriedSince.isSome =
      isDue env.watch.frequency env.watch.last_sent_at now := by
  rcases hdue : isDue env.watch.frequency env.watch.last_sent_at now <;>
    rcases hq : env.query <;>
      simp [processWatch, hdue, hq, skipTrace]

/-- A not-due enabled watch: `last_sent_at` one millisecond ago. -/
def notDueEnv : WatchEnv :=
  { watch := { id := "w9", user_id := "u9", name := "Vahti",
               filters := none, frequency := .daily, is_enabled := true,
               last_sent_at := some 999999 },
    query := .qok [], userLookup := .uok none, send := .sok }

/-- Endpoint environment for the debug-mode run: correct secret, full
configuration, one enabled watch that is not due. -/
def debugDemoEnv : EndpointEnv :=
  { cronSecret := some "topsecret", supabaseUrl := some "https://db",
    serviceRoleKey := some "sk", resendKey := some "re_k",
    appBaseUrlVar := none, watchesResult := .ok [notDueEnv] }

/-- Counterexample to C9 as stated: a debug-mode call with the correct
secret on one enabled, not-due watch does process the batch, yet the
projects query is never evaluated for that watch (its recorded query
bound is `none`) — the due check short-circuits before the query, so
"evaluates the projects query for every enabled watch" fails. -/
theorem debug_mode_query_skip_cex :
    ((digestGET (some "topsecret") (some "1") debugDemoEnv 1000000).2.map
      (fun run => run.traces.map (fun tr => tr.queriedSince))) = some [none] ∧
    ((digestGET (some "topsecret") (some "1") debugDemoEnv 1000000).2.map
      (fun run => run.traces.all (fun tr => tr.queriedSince.isSome))) = some false := by
  exact ⟨by decide, by decide⟩

/-- C9 as amended: a debug-mode call with the correct secret and full
configuration evaluates the due check for every enabled watch and the
projects query for every watch found due, returns one diagnostic row
per watch, reports zero sends, and performs no writes — no email is
handed to the provider and no watch's `last_sent_at` is touched, so
the stored watch state after the call equals the state before it. -/
theorem debug_mode_no_side_effects (s : String) (env : EndpointEnv) (now : Int)
    (envs : List WatchEnv)
    (hs : s ≠ "") (hc : env.cronSecret = some s)
    (hdb : env.supabaseUrl.isSome = true) (hsk : env.serviceRoleKey.isSome = true)
    (hrk : env.resendKey.isSome = true)
    (hw : env.watchesResult = .ok envs) :
    ∃ run : DigestRun,
      (digestGET (some s) (some "1") env now).2 = some run ∧
      (digestGET (some s) (some "1") env now).1 =
        .success envs.length 0 (some (run.traces.filterMap (fun tr => tr.debugRow))) ∧
      run.checked = envs.length ∧
      run.sentCount = 0 ∧
      run.traces.length = envs.length ∧
      (run.traces.filterMap (fun tr => tr.debugRow)).length = envs.length ∧
      ∀ tr ∈ run.traces,
        tr.sendAttempt = none ∧ tr.lastSentUpdate = none ∧ tr.sentIncr = 0 ∧
        tr.queriedSince.isSome = tr.dueResult := by
  have hse : s.isEmpty = false := by
    cases h : s.isEmpty
    · rfl
    · exact absurd ((String.isEmpty_iff s).mp h) hs
  have hacc : secretAccepted (some s) env.cronSecret = true := by
    simp [secretAccepted, hc, hse]
  obtain ⟨a, ha⟩ := Option.isSome_iff_exists.mp hdb
  obtain ⟨b, hb⟩ := Option.isSome_iff_exists.mp hsk
  obtain ⟨c, hcc⟩ := Option.isSome_iff_exists.mp hrk
  set appBaseUrl := jsOrDefault env.appBaseUrlVar "http://localhost:3000" with hurl
  have hsent : ∀ l : List WatchEnv, (runDigest true now appBaseUrl l).sentCount = 0 := by
    intro l
    induction l with
    | nil => rfl
    | cons e rest ih =>
      have h := (processWatch_debug_frame now appBaseUrl e).2.2.1
      simp [runDigest, ih, h]
  have hdbg : ∀ l : List WatchEnv,
      ((runDigest true now appBaseUrl l).traces.filterMap (fun tr => tr.debugRow)).length
        = l.length := by
    intro l
    induction l with
    | nil => rfl
    | cons e rest ih =>
      have h := (processWatch_debug_frame now appBaseUrl e).2.2.2.1
      rcases hrow : (processWatch true now appBaseUrl e).debugRow with _ | row
      · rw [hrow] at h; simp at h
      · simp [runDigest, List.filterMap, hrow, ih]
  obtain ⟨hchk, htr⟩ := runDigest_length true now appBaseUrl envs
  refine ⟨runDigest true now appBaseUrl envs, ?_, ?_, hchk, hsent envs, ?_, hdbg envs, ?_⟩
  · simp [digestGET, hacc, ha, hb, hcc, hw, hurl]
  · simp [digestGET, hacc, ha, hb, hcc, hw, hurl, hchk, hsent envs]
  · simp [htr]
  · intro tr htrm
    rw [htr] at htrm
    rcases List.mem_map.mp htrm with ⟨e, _, rfl⟩
    obtain ⟨h1, h2, h3, _, h4, h5⟩ := processWatch_debug_frame now appBaseUrl e
    exact ⟨h1, h2, h3, by rw [h4, h5]⟩

/-- Witness for the amended C9 at the concrete debug environment. -/
theorem debug_mode_no_side_effects_witness :
    ∃ run : DigestRun,
      (digestGET (some "topsecret") (some "1") debugDemoEnv 1000000).2 = some run ∧
      (digestGET (some "topsecret") (some "1") debugDemoEnv 1000000).1 =
        .success 1 0 (some (run.traces.filterMap (fun tr => tr.debugRow))) ∧
      run.checked = 1 ∧
      run.sentCount = 0 ∧
      run.traces.length = 1 ∧
      (run.traces.filterMap (fun tr => tr.debugRow)).length = 1 ∧
      ∀ tr ∈ run.traces,
        tr.sendAttempt = none ∧ tr.lastSentUpdate = none ∧ tr.sentIncr = 0 ∧
        tr.queriedSince.isSome = tr.dueResult :=
  debug_mode_no_side_effects "topsecret" debugDemoEnv 1000000 [notDueEnv]
    (by decide) rfl rfl rfl rfl rfl

/-- A list is a prefix of itself followed by anything. -/
theorem charsPrefixOf_self_append (l t : List Char) :
    charsPrefixOf l (l ++ t) = true := by
  induction l with
  | nil => rfl
  | cons c cs ih => simp [charsPrefixOf, ih]

/-- A prefix occurrence is in particular an occurrence. -/
theorem charsIncludes_of_prefixOf {n h : List Char}
    (hp : charsPrefixOf n h = true) : charsIncludes n h = true := by
  cases h with
  | nil => cases n with
    | nil => rfl
    | cons c cs => simp [charsPrefixOf] at hp
  | cons c cs => simp [charsIncludes, hp]

/-- An explicit middle segment is always found by the substring
scan. -/
theorem charsIncludes_append_middle (a b c : List Char) :
    charsIncludes b (a ++ b ++ c) = true := by
  rw [List.append_assoc]
  induction a with
  | nil => exact charsIncludes_of_prefixOf (charsPrefixOf_self_append b c)
  | cons x xs ih => simp [charsIncludes, ih]

/-- String-level corollary: `(a ++ b ++ c).includes(b)`. -/
theorem strIncludes_append_middle (a b c : String) :
    strIncludes (a ++ b ++ c) b = true := by
  have : (a ++ b ++ c).data = a.data ++ b.data ++ c.data := by
    simp [String.data_append]
  simp only [strIncludes, this]
  exact charsIncludes_append_middle a.data b.data c.data

/-- C8: a due watch with a non-empty query result and a resolvable
address hands the provider exactly the composed digest email; its
bullet list is the rendering (name, city, region, phase) of the
first 30 matching projects — never more than 30 lines — and the HTML
body carries the truncation note precisely when more than 30 projects
matched, in which case the note text occurs in the body. -/
theorem digest_email_truncation (now : Int) (appBaseUrl : String)
    (env : WatchEnv) (ps : List ProjRow) (e : String)
    (hdue : isDue env.watch.frequency env.watch.last_sent_at now = true)
    (hq : env.query = .qok ps) (hne : ps ≠ [])
    (hu : env.userLookup = .uok (some e)) (he : e ≠ "") :
    (processWatch false now appBaseUrl env).sendAttempt
        = some (digestEmailFor appBaseUrl env.watch e ps) ∧
    (digestEmailFor appBaseUrl env.watch e ps).text
        = digestTextBody env.watch.name (summarizeFilters env.watch.filters) appBaseUrl ps ∧
    digestLines ps = (ps.take 30).map projLine ∧
    (digestLines ps).length = min 30 ps.length ∧
    (digestLines ps).length ≤ 30 ∧
    (truncNote ps.length = "" ↔ ps.length ≤ 30) ∧
    (30 < ps.length →
      strIncludes (digestEmailFor appBaseUrl env.watch e ps).html
        (truncNote ps.length) = true) := by
  have hse : e.isEmpty = false := by
    cases h : e.isEmpty
    · rfl
    · exact absurd ((String.isEmpty_iff e).mp h) he
  refine ⟨?_, rfl, rfl, ?_, ?_, ?_, ?_⟩
  · cases hs : env.send <;>
      simp [processWatch, hdue, hq, hne, hu, hs, jsTruthy, hse]
  · simp [digestLines]
  · simp [digestLines]
  · constructor
    · intro h
      by_contra hgt
      push_neg at hgt
      have hnote : truncNote ps.length =
          "<div style=\"font-size:13px;color:#6b7280;margin-top:10px;\">Näytetään 30 / " ++
            toString ps.length ++ ". Avaa palvelu nähdäksesi kaikki.</div>" := by
        simp [truncNote, hgt]
      rw [hnote] at h
      have hlen := congrArg String.length h
      simp [String.length_append] at hlen
      exact absurd hlen.1.1 (by decide)
    · intro h
      have : ¬ ps.length > 30 := by omega
      simp [truncNote, this]
  · intro hgt
    have : (digestEmailFor appBaseUrl env.watch e ps).html =
        digestHtmlPre env.watch.name (summarizeFilters env.watch.filters) ps ++
          truncNote ps.length ++ digestHtmlPost appBaseUrl := rfl
    rw [this]
    exact strIncludes_append_middle _ _ _

/-- A watch environment with 31 matching projects and a working
provider, for exercising the truncation path. -/
def truncDemoEnv : WatchEnv :=
  { watch := weeklyNeverSent,
    query := .qok (List.replicate 31
      { name := "Kohde", city := "Espoo", region := some "Uusimaa",
        phase := "Suunnittelussa" }),
    userLookup := .uok (some "user@example.com"), send := .sok }

/-- Witness for C8 at the concrete 31-project environment. -/
theorem digest_email_truncation_witness :
    (processWatch false 1700000000000 "http://localhost:3000" truncDemoEnv).sendAttempt
        = some (digestEmailFor "http://localhost:3000" truncDemoEnv.watch "user@example.com"
            (List.replicate 31
              { name := "Kohde", city := "Espoo", region := some "Uusimaa",
                phase := "Suunnittelussa" })) ∧
    (digestEmailFor "http://localhost:3000" truncDemoEnv.watch "user@example.com"
        (List.replicate 31
          { name := "Kohde", city := "Espoo", region := some "Uusimaa",
            phase := "Suunnittelussa" })).text
        = digestTextBody truncDemoEnv.watch.name
            (summarizeFilters truncDemoEnv.watch.filters) "http://localhost:3000"
            (List.replicate 31
              { name := "Kohde", city := "Espoo", region := some "Uusimaa",
                phase := "Suunnittelussa" }) ∧
    digestLines (List.replicate 31
        { name := "Kohde", city := "Espoo", region := some "Uusimaa",
          phase := "Suunnittelussa" })
      = ((List.replicate 31
          { name := "Kohde", city := "Espoo", region := some "Uusimaa",
            phase := "Suunnittelussa" : ProjRow }).take 30).map projLine ∧
    (digestLines (List.replicate 31
        { name := "Kohde", city := "Espoo", region := some "Uusimaa",
          phase := "Suunnittelussa" })).length
      = min 30 (List.replicate 31
          { name := "Kohde", city := "Espoo", region := some "Uusimaa",
            phase := "Suunnittelussa" : ProjRow }).length ∧
    (digestLines (List.replicate 31
        { name := "Kohde", city := "Espoo", region := some "Uusimaa",
          phase := "Suunnittelussa" })).length ≤ 30 ∧
    (truncNote (List.replicate 31
        { name := "Kohde", city := "Espoo", region := some "Uusimaa",
          phase := "Suunnittelussa" : ProjRow }).length = "" ↔
      (List.replicate 31
        { name := "Kohde", city := "Espoo", region := some "Uusimaa",
          phase := "Suunnittelussa" : ProjRow }).length ≤ 30) ∧
    (30 < (List.replicate 31
        { name := "Kohde", city := "Espoo", region := some "Uusimaa",
          phase := "Suunnittelussa" : ProjRow }).length →
      strIncludes (digestEmailFor "http://localhost:3000" truncDemoEnv.watch
          "user@example.com"
          (List.replicate 31
            { name := "Kohde", city := "Espoo", region := some "Uusimaa",
              phase := "Suunnittelussa" })).html
        (truncNote (List.replicate 31
            { name := "Kohde", city := "Espoo", region := some "Uusimaa",
              phase := "Suunnittelussa" : ProjRow }).length) = true) :=
  digest_email_truncation 1700000000000 "http://localhost:3000" truncDemoEnv _
    "user@example.com" (by decide) rfl (by simp) rfl (by decide)

/-- The filter predicate as the specification phrases it: every
selected categorical filter matches exactly (region and property type
after null→"" coercion, city and phase as stored), and a present
free-text term occurs, lowercased, in the searchable haystack. -/
def specProjectMatches (q region city phase propertyType : String) (p : Project) : Prop :=
  (region ≠ "" → p.region.getD "" = region) ∧
  (city ≠ "" → p.city = city) ∧
  (phase ≠ "" → p.phase = phase) ∧
  (propertyType ≠ "" → p.property_type.getD "" = propertyType) ∧
  (strToLower (strTrim q) ≠ "" →
    strIncludes (haystackOf p) (strToLower (strTrim q)) = true)

/-- A string's `isEmpty` is false exactly when it differs from the
empty string. -/
theorem strIsEmpty_false_iff (s : String) : s.isEmpty = false ↔ s ≠ "" := by
  rw [← Bool.not_eq_true, not_iff_not]
  exact String.isEmpty_iff s

/-- The shape of each categorical guard of the filter predicate. -/
theorem guardCond_iff (s t : String) :
    (!s.isEmpty && !(t == s)) = true ↔ s ≠ "" ∧ t ≠ s := by
  simp [Bool.and_eq_true, strIsEmpty_false_iff]

/-- The early-return chain of the page's filter predicate is exactly
the specification's conjunction. -/
theorem projectMatches_iff (q region city phase propertyType : String) (p : Project) :
    projectMatches q region city phase propertyType p = true ↔
      specProjectMatches q region city phase propertyType p := by
  unfold projectMatches specProjectMatches
  split_ifs with h1 h2 h3 h4 h5
  · rw [guardCond_iff] at h1
    exact iff_of_false (by simp) (fun hs => h1.2 (hs.1 h1.1))
  · rw [guardCond_iff] at h2
    exact iff_of_false (by simp) (fun hs => h2.2 (hs.2.1 h2.1))
  · rw [guardCond_iff] at h3
    exact iff_of_false (by simp) (fun hs => h3.2 (hs.2.2.1 h3.1))
  · rw [guardCond_iff] at h4
    exact iff_of_false (by simp) (fun hs => h4.2 (hs.2.2.2.1 h4.1))
  all_goals
    have g1 : region ≠ "" → p.region.getD "" = region := fun hne => by
      by_contra hne2; exact h1 ((guardCond_iff region (p.region.getD "")).mpr ⟨hne, hne2⟩)
    have g2 : city ≠ "" → p.city = city := fun hne => by
      by_contra hne2; exact h2 ((guardCond_iff city p.city).mpr ⟨hne, hne2⟩)
    have g3 : phase ≠ "" → p.phase = phase := fun hne => by
      by_contra hne2; exact h3 ((guardCond_iff phase p.phase).mpr ⟨hne, hne2⟩)
    have g4 : propertyType ≠ "" → p.property_type.getD "" = propertyType := fun hne => by
      by_contra hne2
      exact h4 ((guardCond_iff propertyType (p.property_type.getD "")).mpr ⟨hne, hne2⟩)
  · have hq : strToLower (strTrim q) = "" := (String.isEmpty_iff _).mp h5
    exact iff_of_true rfl ⟨g1, g2, g3, g4, fun hne => absurd hq hne⟩
  · have hq : strToLower (strTrim q) ≠ "" :=
      (strIsEmpty_false_iff _).mp (Bool.not_eq_true _ ▸ eq_false_of_ne_true h5)
    constructor
    · intro hinc
      exact ⟨g1, g2, g3, g4, fun _ => hinc⟩
    · intro hs
      exact hs.2.2.2.2 hq

/-- C5: a loaded project survives the active filter set iff every
selected categorical filter matches it exactly and any free-text term
occurs in its lowercased haystack; in particular, under
`{region: "Uusimaa", q: "Oy"}` a project is kept iff its null-coerced
region equals `"Uusimaa"` and its haystack contains `"oy"`. -/
theorem catalog_filter_characterization :
    (∀ (ps : List Project) (q region city phase propertyType : String) (p : Project),
      p ∈ filteredProjects ps q region city phase propertyType ↔
        p ∈ ps ∧ specProjectMatches q region city phase propertyType p) ∧
    (∀ (ps : List Project) (p : Project),
      p ∈ filteredProjects ps "Oy" "Uusimaa" "" "" "" ↔
        p ∈ ps ∧ p.region.getD "" = "Uusimaa" ∧
          strIncludes (haystackOf p) "oy" = true) := by
  have hgen : ∀ (ps : List Project) (q region city phase propertyType : String)
      (p : Project),
      p ∈ filteredProjects ps q region city phase propertyType ↔
        p ∈ ps ∧ specProjectMatches q region city phase propertyType p := by
    intro ps q region city phase propertyType p
    rw [filteredProjects, List.mem_filter, projectMatches_iff]
  refine ⟨hgen, ?_⟩
  intro ps p
  rw [hgen]
  have htl : strToLower (strTrim "Oy") = "oy" := by decide
  have h1 : ("Uusimaa" : String) ≠ "" := by decide
  have h2 : ("oy" : String) ≠ "" := by decide
  simp [specProjectMatches, htl, h1, h2]

/-- C6: a project that passes the active filters but has no usable
coordinates is in the rendered list exactly when it is among the
filtered projects — independently of the viewport and of the
limit-to-map-view toggle; only projects with coordinates can be
excluded by the bounds restriction. -/
theorem unmappable_project_always_listed (limit : Bool) (b : Option MapBounds)
    (ps : List Project) (q region city phase propertyType : String) (p : Project)
    (hnc : hasCoords p = false) :
    p ∈ listProjects limit b ps q region city phase propertyType ↔
      p ∈ filteredProjects ps q region city phase propertyType := by
  cases limit with
  | false => simp [listProjects]
  | true =>
    rw [listProjects, if_neg (by simp)]
    constructor
    · intro hm
      rcases List.mem_append.mp hm with hA | hB
      · have hfwc : p ∈ filteredWithCoords ps q region city phase propertyType := by
          rw [inBoundsWithCoords.eq_def, if_neg (by simp)] at hA
          rcases b with _ | bb
          · exact hA
          · exact (List.mem_filter.mp hA).1
        have := (List.mem_filter.mp hfwc).2
        rw [hnc] at this
        cases this
      · exact (List.mem_filter.mp hB).1
    · intro hf
      exact List.mem_append.mpr (Or.inr (List.mem_filter.mpr ⟨hf, by simp [hnc]⟩))

/-- A filtered project both of whose coordinate columns are null. -/
def noCoordsProject : Project :=
  { id := "p1", name := "Hanke Oy", city := "Espoo", region := some "Uusimaa",
    phase := "Suunnittelussa", location := none, developer := none,
    builder := none, property_type := none, additional_info := none,
    latitude := some .nullv, longitude := some .nullv, lat := none, lng := none }

/-- Witness for C6: the coordinate-less project stays listed with the
toggle on and a concrete viewport. -/
theorem unmappable_project_always_listed_witness :
    noCoordsProject ∈ listProjects true
        (some { south := 60, west := 24, north := 61, east := 25 })
        [noCoordsProject] "" "" "" "" "" ↔
      noCoordsProject ∈ filteredProjects [noCoordsProject] "" "" "" "" "" :=
  unmappable_project_always_listed true
    (some { south := 60, west := 24, north := 61, east := 25 })
    [noCoordsProject] "" "" "" "" "" noCoordsProject (by decide)

/-- `split(',')` never yields an empty piece list. -/
theorem jsSplitComma_ne_nil (l : List Char) : jsSplitComma l ≠ [] := by
  induction l with
  | nil => simp [jsSplitComma]
  | cons c rest ih =>
    by_cases h : c = ','
    · simp [jsSplitComma, h]
    · rw [jsSplitComma, if_neg h]
      rcases hr : jsSplitComma rest with _ | ⟨piece, pieces⟩
      · exact (ih hr).elim
      · simp

/-- Splitting a string of commas and whitespace yields pieces of
whitespace only. -/
theorem jsSplitComma_pieces_ws {l : List Char}
    (hl : ∀ c ∈ l, c = ',' ∨ c.isWhitespace = true) :
    ∀ piece ∈ jsSplitComma l, ∀ c ∈ piece, c.isWhitespace = true := by
  induction l with
  | nil =>
    intro piece hp c hc
    simp [jsSplitComma] at hp
    subst hp
    simp at hc
  | cons x rest ih =>
    intro piece hp c hc
    have hrest : ∀ c ∈ rest, c = ',' ∨ c.isWhitespace = true :=
      fun c hc => hl c (List.mem_cons_of_mem _ hc)
    by_cases hx : x = ','
    · rw [jsSplitComma, if_pos hx] at hp
      rcases List.mem_cons.mp hp with rfl | hp'
      · simp at hc
      · exact ih hrest piece hp' c hc
    · have hxw : x.isWhitespace = true := by
        rcases hl x (List.mem_cons_self x rest) with h | h
        · exact absurd h hx
        · exact h
      rw [jsSplitComma, if_neg hx] at hp
      rcases hr : jsSplitComma rest with _ | ⟨p0, prest⟩
      · exact absurd hr (jsSplitComma_ne_nil rest)
      · rw [hr] at hp
        rcases List.mem_cons.mp hp with rfl | hp'
        · rcases List.mem_cons.mp hc with rfl | hc'
          · exact hxw
          · exact ih hrest p0 (hr ▸ List.mem_cons_self p0 prest) c hc'
        · exact ih hrest piece (hr ▸ List.mem_cons_of_mem _ hp') c hc

/-- Trimming an all-whitespace piece leaves nothing. -/
theorem jsTrim_ws_nil {piece : List Char}
    (h : ∀ c ∈ piece, c.isWhitespace = true) : jsTrim piece = [] := by
  unfold jsTrim
  have h1 : piece.dropWhile Char.isWhitespace = [] :=
    List.dropWhile_eq_nil_iff.mpr h
  simp [h1]

/-- An unset, empty, or commas-and-whitespace-only `ADMIN_EMAILS`
parses to the empty allow-list. -/
theorem parseAdminEmails_ws (v : Option (List Char))
    (h : ∀ c ∈ v.getD [], c = ',' ∨ c.isWhitespace = true) :
    parseAdminEmails v = [] := by
  unfold parseAdminEmails
  rw [List.filter_eq_nil_iff]
  intro s hs
  rcases List.mem_map.mp hs with ⟨piece, hpm, rfl⟩
  have hws := jsSplitComma_pieces_ws h piece hpm
  simp [jsTrim_ws_nil hws, jsToLower]

/-- Every entry of a parsed allow-list is nonempty (empty pieces are
filtered out). -/
theorem parseAdminEmails_mem_ne_nil (v : Option (List Char)) :
    ∀ s ∈ parseAdminEmails v, s ≠ [] := by
  intro s hs
  have h := (List.mem_filter.mp hs).2
  simp at h
  exact h

/-- C10: with `ADMIN_EMAILS` unset, empty, or consisting only of
commas and whitespace, the allow-list is empty and every
authenticated request to a `/dashboard` path is redirected to
`/projects` (the gate fails closed); and whatever the allow-list, a
session user with no email can never pass it. -/
theorem admin_gate_fails_closed (path : List Char) (u : SessionUser)
    (v : Option (List Char))
    (hpath : charsPrefixOf "/dashboard".data path = true) :
    ((∀ c ∈ v.getD [], c = ',' ∨ c.isWhitespace = true) →
        middleware path (some u) v = .redirectProjects) ∧
    (u.email = none → middleware path (some u) v = .redirectProjects) := by
  constructor
  · intro hws
    have hadm : parseAdminEmails v = [] := parseAdminEmails_ws v hws
    simp [middleware, hpath, hadm]
  · intro hem
    have hmem : [] ∉ parseAdminEmails v :=
      fun hm => parseAdminEmails_mem_ne_nil v [] hm rfl
    simp [middleware, hpath, hem, jsToLower, hmem]

/-- Witness for C10: a concrete admin and a commas-and-spaces
configuration value still redirect away from the dashboard. -/
theorem admin_gate_fails_closed_witness :
    middleware "/dashboard".data (some { email := some "a@b.fi".data })
        (some ", , ".data) = .redirectProjects := by
  have h := admin_gate_fails_closed "/dashboard".data { email := some "a@b.fi".data }
    (some ", , ".data) (by decide)
  exact h.1 (by decide)

end Tyomaat
